import Mathlib

/-!
Verification of the HITL webhook pending-approval store
(`hitl_webhook.py`): a Flask webhook server receiving CrewAI task
callbacks, a review-task classifier/extractor, and a JSON-file-backed
store of pending approvals.

Python values occurring in the relevant data paths (JSON payloads and
store contents) are modelled by `PyVal` (JSON numbers are modelled as
integers; floats do not occur in any behaviour the properties below
depend on).  Python truthiness, `or`, `dict.get`, `==`, `str()` and
`json.dumps(..., indent=2)` are modelled explicitly.
-/

/-- A Python value as it occurs in JSON payloads and the store:
`None`, booleans, integers, strings, lists and string-keyed dicts. -/
inductive PyVal where
  | none
  | bool (b : Bool)
  | int (n : Int)
  | str (s : String)
  | list (xs : List PyVal)
  | dict (entries : List (String × PyVal))

/-- Python truthiness: `None`, `False`, `0`, `""`, `[]`, `{}` are falsy. -/
def pyTruthy : PyVal → Bool
  | .none => false
  | .bool b => b
  | .int n => n != 0
  | .str s => s != ""
  | .list xs => !xs.isEmpty
  | .dict d => !d.isEmpty

/-- Python `a or b`: returns `a` when `a` is truthy, else `b`. -/
def pyOr (a b : PyVal) : PyVal :=
  if pyTruthy a then a else b

/-- Python `d.get(k)` on a dict: the stored value, or `None` when absent.
Python dicts have unique keys, so first-match lookup is exact. -/
def dictGet (d : List (String × PyVal)) (k : String) : PyVal :=
  (List.lookup k d).getD .none

mutual

/-- Python `==` on the modelled values: `True == 1`, strings compare to
strings only, lists elementwise, dicts by key set with equal values per
key (stated via mutual containment plus equal size; exact for the
unique-key dicts Python produces). -/
def pyEq : PyVal → PyVal → Bool
  | .none, .none => true
  | .bool a, .bool b => a == b
  | .bool a, .int m => (if a then (1 : Int) else 0) == m
  | .int n, .bool b => n == (if b then (1 : Int) else 0)
  | .int n, .int m => n == m
  | .str s, .str t => s == t
  | .list xs, .list ys => pyEqList xs ys
  | .dict d1, .dict d2 => d1.length == d2.length && pySubDict d1 d2 && pySubDict d2 d1
  | _, _ => false
termination_by a b => sizeOf a + sizeOf b

/-- Elementwise Python `==` on lists. -/
def pyEqList : List PyVal → List PyVal → Bool
  | [], [] => true
  | x :: xs, y :: ys => pyEq x y && pyEqList xs ys
  | _, _ => false
termination_by xs ys => sizeOf xs + sizeOf ys

/-- Every entry of the first dict has a matching entry in the second. -/
def pySubDict : List (String × PyVal) → List (String × PyVal) → Bool
  | [], _ => true
  | (k, v) :: rest, d => pyHasPair k v d && pySubDict rest d
termination_by d1 d2 => sizeOf d1 + sizeOf d2

/-- The dict has an entry with the given key and a `pyEq`-equal value. -/
def pyHasPair : String → PyVal → List (String × PyVal) → Bool
  | _, _, [] => false
  | k, v, (k2, v2) :: rest => (k == k2 && pyEq v v2) || pyHasPair k v rest
termination_by _ v d => sizeOf v + sizeOf d

end

/-- The single-quote character used by Python `repr` of strings. -/
def pyQuote : String := "\x27"

mutual

/-- Python `repr` of the modelled values (as in `str()` of a container).
String `repr` is modelled as single-quoting without escape refinements;
no verified property depends on `repr` of strings containing quotes. -/
def pyRepr : PyVal → String
  | .none => "None"
  | .bool true => "True"
  | .bool false => "False"
  | .int n => toString n
  | .str s => pyQuote ++ s ++ pyQuote
  | .list xs => "[" ++ pyReprList xs ++ "]"
  | .dict d => "\x7b" ++ pyReprDict d ++ "\x7d"
termination_by v => sizeOf v

/-- Comma-joined `repr`s of list elements. -/
def pyReprList : List PyVal → String
  | [] => ""
  | [x] => pyRepr x
  | x :: xs => pyRepr x ++ ", " ++ pyReprList xs
termination_by xs => sizeOf xs

/-- Comma-joined `repr`s of dict entries. -/
def pyReprDict : List (String × PyVal) → String
  | [] => ""
  | [(k, v)] => pyQuote ++ k ++ pyQuote ++ ": " ++ pyRepr v
  | (k, v) :: rest => pyQuote ++ k ++ pyQuote ++ ": " ++ pyRepr v ++ ", " ++ pyReprDict rest
termination_by d => sizeOf d

end

/-- Python `str()`: identity on strings, `repr`-like rendering otherwise. -/
def pyStr : PyVal → String
  | .str s => s
  | v => pyRepr v

/-- Lowercase hex digit, as produced by Python json escapes. -/
def hexDigit (n : Nat) : Char :=
  if n < 10 then Char.ofNat (48 + n) else Char.ofNat (87 + n)

/-- Four-digit hex rendering of a code unit. -/
def hex4 (n : Nat) : String :=
  String.mk [hexDigit (n / 4096 % 16), hexDigit (n / 256 % 16),
             hexDigit (n / 16 % 16), hexDigit (n % 16)]

/-- One character of a JSON string literal under `json.dumps` defaults
(`ensure_ascii=True`): short escapes for quote, backslash and common
control characters, `u`-escapes for other control and non-ASCII
characters (surrogate pairs above the BMP), the character itself
otherwise. -/
def jsonEscapeChar (c : Char) : String :=
  if c = Char.ofNat 34 then "\\\""
  else if c = Char.ofNat 92 then "\\\\"
  else if c = Char.ofNat 10 then "\\n"
  else if c = Char.ofNat 9 then "\\t"
  else if c = Char.ofNat 13 then "\\r"
  else if c = Char.ofNat 8 then "\\b"
  else if c = Char.ofNat 12 then "\\f"
  else if c.toNat < 32 then "\\u" ++ hex4 c.toNat
  else if c.toNat < 127 then String.singleton c
  else if c.toNat < 65536 then "\\u" ++ hex4 c.toNat
  else
    "\\u" ++ hex4 (55296 + (c.toNat - 65536) / 1024) ++
    "\\u" ++ hex4 (56320 + (c.toNat - 65536) % 1024)

/-- A JSON string literal for `s`. -/
def jsonQuote (s : String) : String :=
  "\"" ++ String.join (s.data.map jsonEscapeChar) ++ "\""

/-- `n` spaces. -/
def spaces (n : Nat) : String := String.mk (List.replicate n ' ')

mutual

/-- `json.dumps(v, indent=2)` at nesting level `lvl`: each container
item on its own line indented two spaces deeper, `": "` after keys,
empty containers rendered inline. -/
def jsonDumps (lvl : Nat) : PyVal → String
  | .none => "null"
  | .bool true => "true"
  | .bool false => "false"
  | .int n => toString n
  | .str s => jsonQuote s
  | .list [] => "[]"
  | .list (x :: xs) =>
    "[\n" ++ jsonDumpsItems (lvl + 1) (x :: xs) ++ "\n" ++ spaces (2 * lvl) ++ "]"
  | .dict [] => "\x7b\x7d"
  | .dict (kv :: rest) =>
    "\x7b\n" ++ jsonDumpsEntries (lvl + 1) (kv :: rest) ++ "\n" ++ spaces (2 * lvl) ++ "\x7d"
termination_by v => sizeOf v

/-- The comma-and-newline-joined indented items of a JSON array. -/
def jsonDumpsItems (lvl : Nat) : List PyVal → String
  | [] => ""
  | [x] => spaces (2 * lvl) ++ jsonDumps lvl x
  | x :: xs => spaces (2 * lvl) ++ jsonDumps lvl x ++ ",\n" ++ jsonDumpsItems lvl xs
termination_by xs => sizeOf xs

/-- The comma-and-newline-joined indented entries of a JSON object. -/
def jsonDumpsEntries (lvl : Nat) : List (String × PyVal) → String
  | [] => ""
  | [(k, v)] => spaces (2 * lvl) ++ jsonQuote k ++ ": " ++ jsonDumps lvl v
  | (k, v) :: rest =>
    spaces (2 * lvl) ++ jsonQuote k ++ ": " ++ jsonDumps lvl v ++ ",\n" ++
    jsonDumpsEntries lvl rest
termination_by d => sizeOf d

end

/-- `json.dumps(content, indent=2)` as called on a dict-valued output in
`_extract_from_task_payload`. -/
def jsonDumpsIndent2 (d : List (String × PyVal)) : String :=
  jsonDumps 0 (.dict d)

/-- The pattern occurs as a contiguous run somewhere in the text. -/
def hasSubChars (pat : List Char) : List Char → Bool
  | [] => pat.isEmpty
  | c :: rest => pat.isPrefixOf (c :: rest) || hasSubChars pat rest

/-- `bool(_REVIEW_TASK_PATTERN.search(s))`: the case-insensitive regex
`review` matches somewhere in `s`.  For the all-ASCII literal pattern
this is containment of `"review"` in the ASCII-lowercased text (the
Unicode special-casing corners of `re.IGNORECASE` cannot affect an
ASCII-only pattern's letters apart from exotic mappings no property
here exercises). -/
def reviewSearch (s : String) : Bool :=
  hasSubChars "review".data (s.data.map Char.toLower)

/-- `_is_review_task(body)`: the `name` field, falling back to
`task_id`, falling back to `""`, passed through `str()` and searched for
the review marker. -/
def is_review_task (body : List (String × PyVal)) : Bool :=
  reviewSearch (pyStr (pyOr (pyOr (dictGet body "name") (dictGet body "task_id")) (.str "")))

/-- The record `_extract_from_task_payload` builds and the `/task`
handler stores: the Python dict with keys `execution_id`, `task_id`,
`content`, `raw` (`task_id` is always passed through `str()`, so it is a
string; `execution_id` and `content` are stored as extracted). -/
structure PendingApproval where
  execution_id : PyVal
  task_id : String
  content : PyVal
  raw : PyVal

/-- The Python dict a stored `PendingApproval` record denotes. -/
def PendingApproval.toDict (r : PendingApproval) : List (String × PyVal) :=
  [("execution_id", r.execution_id), ("task_id", .str r.task_id),
   ("content", r.content), ("raw", r.raw)]

/-- The extractor's `if isinstance(content, dict): content =
json.dumps(content, indent=2)` step: serialize a dict-valued output,
pass anything else through. -/
def normalizeContent (c0 : PyVal) : PyVal :=
  match c0 with
  | .dict m => .str (jsonDumpsIndent2 m)
  | c => c

/-- `_extract_from_task_payload(body)`: `execution_id` from
`kickoff_id` falling back to `execution_id`; `task_id` from `name`
falling back to `task_id` falling back to `"request_review"`; `content`
from `output` falling back to `summary`, dicts serialized with
`json.dumps(..., indent=2)`, falsy content replaced by the placeholder;
`None` (no record) exactly when the derived execution id is falsy. -/
def extract_from_task_payload (body : List (String × PyVal)) : Option PendingApproval :=
  let execution_id := pyOr (dictGet body "kickoff_id") (dictGet body "execution_id")
  let task_id := pyOr (pyOr (dictGet body "name") (dictGet body "task_id")) (.str "request_review")
  let content1 := normalizeContent (pyOr (dictGet body "output") (dictGet body "summary"))
  let content2 := if pyTruthy content1 then content1 else .str "(No output in task webhook)"
  if pyTruthy execution_id then
    some { execution_id := execution_id, task_id := pyStr task_id,
           content := content2, raw := .dict body }
  else
    Option.none

/-- The persisted store file as the reading code distinguishes it:
missing, unreadable at the OS level (`OSError` on open/read),
decodable text that is not valid JSON (`json.JSONDecodeError`), bytes
that are not decodable as text at all (`json.load`'s internal read
raises `UnicodeDecodeError`, a `ValueError` that is neither a
`JSONDecodeError` nor an `OSError`), or valid JSON parsing to a value.
The file after a successful `json.dump` is represented by the value
that `json.load` parses back from it (round-tripping of the `json`
standard library on the modelled value domain is assumed, not
re-verified). -/
inductive StoredFile where
  | absent
  | unreadable
  | malformed
  | undecodable
  | json (v : PyVal)

/-- `_read_store()`: `some` of the parsed contents when the file
exists and parses; `some []` when the file is missing, unreadable
(`OSError`) or holds non-JSON text (`json.JSONDecodeError`), both
caught; `Option.none` models the `UnicodeDecodeError` on undecodable
bytes, which the `except` clause does not catch, so it propagates to
the caller. -/
def read_store : StoredFile → Option PyVal
  | .absent => some (.list [])
  | .unreadable => some (.list [])
  | .malformed => some (.list [])
  | .undecodable => Option.none
  | .json v => some v

/-- `_write_store(data)`: overwrite the file with
`json.dump(data, f, indent=2)`; the resulting file parses back to the
written value. -/
def write_store (v : PyVal) : StoredFile := .json v

/-- `get_pending_approvals()`. -/
def get_pending_approvals (f : StoredFile) : Option PyVal := read_store f

/-- The effect of `_write_store(_read_store())` on the file: when the
read returns, its result is dumped over the file; when the read raises
(undecodable bytes), the exception propagates before any write and the
file stays as it was. -/
def writeAllReadAll (f : StoredFile) : StoredFile :=
  match read_store f with
  | some v => write_store v
  | Option.none => f

/-- The duplicate test of `remove_approval` (and of the `/task` handler)
on one stored element: `a.get("execution_id") == execution_id and
a.get("task_id") == task_id`.  On a non-dict element, `a.get` raises
`AttributeError` (no result). -/
def approvalMatches (e t : String) : PyVal → Option Bool
  | .dict d => some (pyEq (dictGet d "execution_id") (.str e) &&
                     pyEq (dictGet d "task_id") (.str t))
  | _ => Option.none

/-- The list comprehension of `remove_approval`: keep the elements that
do not match; `Option.none` when some element raises. -/
def filterNotMatching (e t : String) : List PyVal → Option (List PyVal)
  | [] => some []
  | a :: rest =>
    match approvalMatches e t a with
    | Option.none => Option.none
    | some m => (filterNotMatching e t rest).map (fun l => if m then l else a :: l)

/-- `remove_approval(execution_id, task_id)` as a transformation of the
persisted store contents: the filtered list is written back; if the
comprehension raises (non-dict element), nothing is written and the
contents stay as they were. -/
def remove_approval (store : List PyVal) (e t : String) : List PyVal :=
  match filterNotMatching e t store with
  | some l => l
  | Option.none => store

/-- The `/task` handler's upsert step (lines 98-101) on record-shaped
store contents: drop every record whose `execution_id` and `task_id`
fields Python-equal those of the extracted record, then append the
extracted record. -/
def upsertApproval (store : List PendingApproval) (r : PendingApproval) : List PendingApproval :=
  (store.filter fun a => !(pyEq a.execution_id r.execution_id && a.task_id == r.task_id)) ++ [r]

/-- `remove_approval` restricted to record-shaped store contents (the
`a.get` calls read the record's fields; both compared values on the
`task_id` side are strings, where `pyEq` is string equality). -/
def removeApproval (store : List PendingApproval) (e t : String) : List PendingApproval :=
  store.filter fun a => !(pyEq a.execution_id (.str e) && a.task_id == t)

/-- One store operation of the webhook subsystem: the `/task` handler's
upsert of an extracted record, or a consumer's `remove_approval`. -/
inductive StoreOp where
  | upsert (r : PendingApproval)
  | remove (e t : String)

/-- Apply one operation to the store contents. -/
def applyOp (store : List PendingApproval) : StoreOp → List PendingApproval
  | .upsert r => upsertApproval store r
  | .remove e t => removeApproval store e t

/-- The store contents after a sequence of operations from the empty
store. -/
def runOps (ops : List StoreOp) : List PendingApproval :=
  ops.foldl applyOp []

/-- The value is the string `s` (how Python `==` compares a stored field
against a string key). -/
def strKey (v : PyVal) (s : String) : Bool :=
  match v with
  | .str x => x == s
  | _ => false

/-- The record's (execution_id, task_id) pair is the string pair
`(e, t)`. -/
def keyIs (e t : String) (a : PendingApproval) : Bool :=
  strKey a.execution_id e && a.task_id == t

/-- Every upsert in the sequence carries a string execution id (the
shape the spec's data model prescribes for stored records). -/
def opsStringKeyed (ops : List StoreOp) : Bool :=
  ops.all fun op =>
    match op with
    | .upsert r => match r.execution_id with | .str _ => true | _ => false
    | .remove _ _ => true

/-- Following the spec's words, one step of the per-pair view: an
upsert of the pair `(e, t)` installs its record, a remove of that pair
clears it, anything else changes nothing. -/
def specStep (e t : String) (acc : Option PendingApproval) : StoreOp → Option PendingApproval
  | .upsert r => if keyIs e t r then some r else acc
  | .remove e2 t2 => if e2 == e && t2 == t then Option.none else acc

/-- Following the spec's words: the record of the most recent upsert for
the pair `(e, t)` that was not followed by a remove of that pair, if
any. -/
def specLastUpsert (ops : List StoreOp) (e t : String) : Option PendingApproval :=
  ops.foldl (specStep e t) Option.none

/-- One handler call's observable outcome: HTTP status, the `ok` flag of
the JSON response body, and the store contents after the call. -/
structure RouteResult where
  status : Nat
  ok : Bool
  store : List PendingApproval

/-- The `POST /task` handler on record-shaped store contents.
`parsed = Option.none` models `request.get_json(force=True,
silent=True)` returning `None` (unparseable body); `or {}` replaces any
falsy parse result with the empty dict.  On a truthy non-dict body,
`body.get` inside `_is_review_task` raises `AttributeError`, which the
handler's `except` turns into a 500 response without touching the
store. -/
def taskRoute (parsed : Option PyVal) (store : List PendingApproval) : RouteResult :=
  let body := match parsed with
    | Option.none => PyVal.dict []
    | some v => if pyTruthy v then v else PyVal.dict []
  match body with
  | .dict d =>
    if !is_review_task d then ⟨200, true, store⟩
    else
      match extract_from_task_payload d with
      | some r => ⟨200, true, upsertApproval store r⟩
      | Option.none => ⟨400, false, store⟩
  | _ => ⟨500, false, store⟩

/-- The `POST /step` handler: acknowledge, never touch the body or the
store. -/
def stepRoute (_body : Option PyVal) (store : List PendingApproval) : RouteResult :=
  ⟨200, true, store⟩

/-- The `POST /crew` handler: acknowledge, never touch the body or the
store. -/
def crewRoute (_body : Option PyVal) (store : List PendingApproval) : RouteResult :=
  ⟨200, true, store⟩

/-- The process-wide `_SERVER_THREAD` handle: liveness of the thread and
the port its server was asked to bind. -/
structure ThreadHandle where
  alive : Bool
  port : Int

/-- The environment facts `start_webhook_server` runs against:
`HITL_WEBHOOK_PORT` (when set, as a number), whether starting a new
thread raises (`threading.Thread(...).start()` failing), and whether the
chosen port is already bound by another process. -/
structure StartEnv where
  envPort : Option Int
  threadStartFails : Bool
  portInUse : Bool

/-- `port = port or int(os.getenv("HITL_WEBHOOK_PORT", "5050"))`: a
truthy (nonzero, non-`None`) argument wins, else the environment value,
else 5050. -/
def resolvePort (given : Option Int) (envPort : Option Int) : Int :=
  match given with
  | some p => if p != 0 then p else envPort.getD 5050
  | Option.none => envPort.getD 5050

/-- `start_webhook_server(port)`: if the tracked thread exists and is
alive, return `True` with the handle unchanged; otherwise assign a fresh
daemon thread to the global and start it — if `start()` raises, the
handle holds the never-started thread and the call returns `False`,
else the thread is running and the call returns `True`.  Whether the
port can actually be bound plays no part: `app.run` only executes later
inside the background thread (see `runServerBinds`). -/
def start_webhook_server (st : Option ThreadHandle) (given : Option Int) (env : StartEnv) :
    Bool × Option ThreadHandle :=
  if (match st with | some t => t.alive | Option.none => false) then
    (true, st)
  else
    let port := resolvePort given env.envPort
    if env.threadStartFails then
      (false, some ⟨false, port⟩)
    else
      (true, some ⟨true, port⟩)

/-- Whether `app.run` inside `_run_server` binds its port and serves:
with the port already bound by another process it raises inside the
background thread, after `start_webhook_server` has already returned. -/
def runServerBinds (env : StartEnv) : Bool := !env.portInUse

/-- Two records have Python-distinct (execution_id, task_id) pairs. -/
def distinctKey (a b : PendingApproval) : Prop :=
  ¬(pyEq a.execution_id b.execution_id = true ∧ a.task_id = b.task_id)

/-- The effect of an operation sequence on the single bucket of records
whose (execution_id, task_id) pair is the string pair `(e, t)`: an
upsert of that pair makes the bucket exactly its record, a remove of
that pair empties it, any other operation leaves it alone. -/
def bucketFold (e t : String) (b : List PendingApproval) : List StoreOp → List PendingApproval
  | [] => b
  | .upsert r :: rest => bucketFold e t (if keyIs e t r then [r] else b) rest
  | .remove e2 t2 :: rest => bucketFold e t (if e2 == e && t2 == t then [] else b) rest

unseal pyEq pyEqList pySubDict pyHasPair pyRepr pyReprList pyReprDict
unseal jsonDumps jsonDumpsItems jsonDumpsEntries

/-- Python `==` against a string compares equal only to that string. -/
theorem pyEq_str_right (v : PyVal) (s : String) : pyEq v (.str s) = strKey v s := by
  cases v <;> simp [pyEq, strKey]

/-- The executable substring search agrees with list infix containment. -/
theorem hasSubChars_iff (p l : List Char) : hasSubChars p l = true ↔ p <:+: l := by
  induction l with
  | nil => simp [hasSubChars, List.isEmpty_iff, List.infix_nil]
  | cons c rest ih =>
    simp [hasSubChars, List.infix_cons_iff, ih, List.isPrefixOf_iff_prefix]

/-- `json.dumps` of a dict always starts with a brace, so the serialized
text is truthy (in particular the `if not content` placeholder check
never fires on serialized output). -/
theorem jsonDumpsIndent2_truthy (m : List (String × PyVal)) :
    pyTruthy (.str (jsonDumpsIndent2 m)) = true := by
  cases m with
  | nil => rfl
  | cons kv rest =>
    simp only [pyTruthy, jsonDumpsIndent2, jsonDumps, bne_iff_ne, ne_eq]
    intro h
    have h2 := congrArg String.data h
    simp [String.data_append] at h2

/-- C5 as stated is false on the code: on a store file that exists but
whose bytes are not decodable text — squarely "malformed contents" —
`_read_store` does not return the empty sequence: `json.load`'s
internal read raises `UnicodeDecodeError`, a `ValueError` caught by
neither `json.JSONDecodeError` nor `OSError`, so the exception
propagates to the caller. -/
theorem read_store_raises_on_undecodable_bytes :
    get_pending_approvals StoredFile.undecodable = Option.none
  ∧ get_pending_approvals StoredFile.undecodable ≠ some (PyVal.list []) :=
  ⟨rfl, fun h => Option.noConfusion h⟩

/-- C5 amended: `_read_store` (and hence `get_pending_approvals`)
returns the empty list when the backing file is missing, and likewise —
masking the failure instead of raising — when the file is unreadable at
the OS level (`OSError`) or its text is not valid JSON
(`json.JSONDecodeError`); but when the file's bytes are not decodable
as text, the resulting `UnicodeDecodeError` is not caught and the read
raises instead of returning. -/
theorem read_store_masks_missing_and_corrupt :
    get_pending_approvals .absent = some (.list [])
  ∧ get_pending_approvals .malformed = some (.list [])
  ∧ get_pending_approvals .unreadable = some (.list [])
  ∧ get_pending_approvals .undecodable = Option.none :=
  ⟨rfl, rfl, rfl, rfl⟩

/-- C8: `writeAll(readAll())` is a no-op on store contents — after
`_write_store(_read_store())` (a raising read propagates before any
write, leaving the file as it was) a read returns what a read returned
before, whatever state the file was in; and a read after any
successful write returns exactly the written value. -/
theorem write_read_roundtrip :
    (∀ f : StoredFile, read_store (writeAllReadAll f) = read_store f)
  ∧ (∀ v : PyVal, read_store (write_store v) = some v) := by
  refine ⟨?_, fun v => rfl⟩
  intro f
  cases f <;> rfl

/-- C9: `POST /step` and `POST /crew` answer 200 `{"ok": true}` for
every body and leave the store contents untouched. -/
theorem step_crew_acknowledge_frame :
    ∀ (body : Option PyVal) (store : List PendingApproval),
      stepRoute body store = ⟨200, true, store⟩
    ∧ crewRoute body store = ⟨200, true, store⟩
    ∧ (stepRoute body store).store = store
    ∧ (crewRoute body store).store = store := by
  intro body store
  exact ⟨rfl, rfl, rfl, rfl⟩

/-- C10: `_read_store` does not validate the shape of well-formed
persisted data: any value the file parses to is returned as-is, even a
JSON object or string rather than an array of records; the
empty-sequence masking is reserved for the missing/malformed/unreadable
cases. -/
theorem read_store_returns_parsed_value_unchecked :
    (∀ v : PyVal, get_pending_approvals (.json v) = some v)
  ∧ get_pending_approvals (.json (.dict [("a", .int 1)])) = some (.dict [("a", .int 1)])
  ∧ get_pending_approvals (.json (.str "oops")) = some (.str "oops") :=
  ⟨fun _ => rfl, rfl, rfl⟩

/-- Truthiness of `a or b`. -/
theorem pyTruthy_pyOr (a b : PyVal) :
    pyTruthy (pyOr a b) = (pyTruthy a || pyTruthy b) := by
  unfold pyOr
  by_cases h : pyTruthy a <;> simp [h]

/-- A two-step `or` chain is a first-truthy-wins cascade. -/
theorem pyOr_nested (a b c : PyVal) :
    pyOr (pyOr a b) c =
      if pyTruthy a then a else if pyTruthy b then b else c := by
  unfold pyOr
  by_cases h : pyTruthy a <;> simp [h]

/-- Serialize-then-placeholder equals the claim's serialize-or-
placeholder cascade: serialized dict output is never falsy, so the
placeholder fires exactly on falsy non-dict content. -/
theorem placeholder_after_normalize (c0 : PyVal) :
    (if pyTruthy (normalizeContent c0) then normalizeContent c0
     else .str "(No output in task webhook)")
    = match c0 with
      | PyVal.dict m => PyVal.str (jsonDumpsIndent2 m)
      | c => if pyTruthy c then c else PyVal.str "(No output in task webhook)" := by
  cases c0 <;> simp [normalizeContent, jsonDumpsIndent2_truthy]

/-- The extractor, written as the field-by-field cascade the spec
describes. -/
theorem extract_from_task_payload_eq (body : List (String × PyVal)) :
    extract_from_task_payload body =
      if pyTruthy (dictGet body "kickoff_id") || pyTruthy (dictGet body "execution_id") then
        some { execution_id :=
                 if pyTruthy (dictGet body "kickoff_id") then dictGet body "kickoff_id"
                 else dictGet body "execution_id",
               task_id :=
                 pyStr (if pyTruthy (dictGet body "name") then dictGet body "name"
                        else if pyTruthy (dictGet body "task_id") then dictGet body "task_id"
                        else .str "request_review"),
               content :=
                 match pyOr (dictGet body "output") (dictGet body "summary") with
                 | PyVal.dict m => PyVal.str (jsonDumpsIndent2 m)
                 | c => if pyTruthy c then c else PyVal.str "(No output in task webhook)",
               raw := .dict body }
      else Option.none := by
  simp only [extract_from_task_payload, pyTruthy_pyOr, pyOr_nested,
    placeholder_after_normalize]
  unfold pyOr
  rfl

/-- C4: `_is_review_task` is true exactly when the `name` field, falling
back to `task_id`, falling back to the empty string, case-insensitively
contains `"review"` anywhere; in particular on the three payloads the
spec lists. -/
theorem review_classifier_substring :
    (∀ body : List (String × PyVal),
      (is_review_task body = true ↔
        "review".data <:+:
          ((pyStr (pyOr (pyOr (dictGet body "name") (dictGet body "task_id"))
            (.str ""))).data.map Char.toLower)))
  ∧ is_review_task [("name", .str "request_review")] = true
  ∧ is_review_task [("name", .str "send_email")] = false
  ∧ is_review_task [("task_id", .str "ReViEw_step")] = true := by
  refine ⟨fun body => hasSubChars_iff _ _, rfl, rfl, rfl⟩

/-- C3: the extractor derives `execution_id` from `kickoff_id` with
`execution_id` as fallback, `task_id` from `name` with `task_id` as
fallback and `"request_review"` as default (through `str()`), `content`
from `output` with `summary` as fallback — dicts serialized to indented
JSON, the placeholder substituted when no truthy output exists — keeps
the whole payload in `raw`, and returns nothing exactly when neither
execution-id field is truthy; in particular on the spec's example
payload and on a payload lacking both id fields. -/
theorem extract_field_derivation :
    (∀ body : List (String × PyVal),
      (extract_from_task_payload body = Option.none ↔
        pyTruthy (dictGet body "kickoff_id") = false ∧
        pyTruthy (dictGet body "execution_id") = false)
    ∧ (∀ r, extract_from_task_payload body = some r →
        r.execution_id =
          (if pyTruthy (dictGet body "kickoff_id") then dictGet body "kickoff_id"
           else dictGet body "execution_id")
      ∧ r.task_id =
          pyStr (if pyTruthy (dictGet body "name") then dictGet body "name"
                 else if pyTruthy (dictGet body "task_id") then dictGet body "task_id"
                 else .str "request_review")
      ∧ r.content =
          (match pyOr (dictGet body "output") (dictGet body "summary") with
           | PyVal.dict m => PyVal.str (jsonDumpsIndent2 m)
           | c => if pyTruthy c then c else PyVal.str "(No output in task webhook)")
      ∧ r.raw = PyVal.dict body))
  ∧ extract_from_task_payload
      [("kickoff_id", .str "abc123"), ("name", .str "request_review"),
       ("output", .str "Draft text")]
    = some { execution_id := .str "abc123", task_id := "request_review",
             content := .str "Draft text",
             raw := .dict [("kickoff_id", .str "abc123"), ("name", .str "request_review"),
                           ("output", .str "Draft text")] }
  ∧ extract_from_task_payload [("name", .str "request_review"), ("output", .str "hi")]
    = Option.none := by
  refine ⟨fun body => ⟨?_, ?_⟩, rfl, rfl⟩
  · rw [extract_from_task_payload_eq]
    by_cases hk : pyTruthy (dictGet body "kickoff_id") <;>
      by_cases he : pyTruthy (dictGet body "execution_id") <;> simp [hk, he]
  · intro r hr
    rw [extract_from_task_payload_eq] at hr
    by_cases hb :
        (pyTruthy (dictGet body "kickoff_id") || pyTruthy (dictGet body "execution_id")) = true
    · rw [if_pos hb] at hr
      injection hr with h
      subst h
      exact ⟨rfl, rfl, rfl, rfl⟩
    · rw [if_neg hb] at hr
      exact Option.noConfusion hr

/-- A dict-bodied `/task` request reaches the classifier with that dict
(an empty dict is falsy, but `or {}` then substitutes the same empty
dict). -/
theorem taskRoute_dict (d : List (String × PyVal)) (store : List PendingApproval) :
    taskRoute (some (.dict d)) store =
      if !is_review_task d then ⟨200, true, store⟩
      else
        match extract_from_task_payload d with
        | some r => ⟨200, true, upsertApproval store r⟩
        | Option.none => ⟨400, false, store⟩ := by
  unfold taskRoute
  by_cases h : pyTruthy (.dict d) = true
  · simp [h]
  · have hd : d = [] := by
      cases d with
      | nil => rfl
      | cons kv rest => simp [pyTruthy] at h
    subst hd
    simp [h]

/-- C2: the `/task` handler treats an unparseable body as the empty
mapping; acknowledges a non-review payload with 200 without storing;
upserts the extracted record and answers 200 when extraction succeeds
on a review payload; answers 400 storing nothing when extraction yields
no record; and turns the `AttributeError` a truthy non-dict body raises
into a 500 response instead of propagating, leaving the store as it
was.  The spec's scenario payload produces 200 and exactly one stored
record with execution id `"k1"`. -/
theorem task_route_status_and_storage :
    ∀ store : List PendingApproval,
      (taskRoute Option.none store = ⟨200, true, store⟩
        ∧ taskRoute Option.none store = taskRoute (some (PyVal.dict [])) store)
    ∧ (∀ v, pyTruthy v = false →
        taskRoute (some v) store = taskRoute (some (PyVal.dict [])) store)
    ∧ (∀ d, is_review_task d = false →
        taskRoute (some (.dict d)) store = ⟨200, true, store⟩)
    ∧ (∀ d r, is_review_task d = true → extract_from_task_payload d = some r →
        taskRoute (some (.dict d)) store = ⟨200, true, upsertApproval store r⟩)
    ∧ (∀ d, is_review_task d = true → extract_from_task_payload d = Option.none →
        taskRoute (some (.dict d)) store = ⟨400, false, store⟩)
    ∧ (∀ v, pyTruthy v = true → (∀ d, v ≠ PyVal.dict d) →
        taskRoute (some v) store = ⟨500, false, store⟩)
    ∧ taskRoute
        (some (.dict [("kickoff_id", .str "k1"), ("name", .str "request_review"),
                      ("output", .str "Hi")])) []
      = ⟨200, true,
         [{ execution_id := .str "k1", task_id := "request_review",
            content := .str "Hi",
            raw := .dict [("kickoff_id", .str "k1"), ("name", .str "request_review"),
                          ("output", .str "Hi")] }]⟩ := by
  intro store
  refine ⟨⟨rfl, rfl⟩, ?_, ?_, ?_, ?_, ?_, rfl⟩
  · intro v hv
    unfold taskRoute
    simp [hv]
  · intro d hd
    rw [taskRoute_dict]
    simp [hd]
  · intro d r hd hr
    rw [taskRoute_dict]
    simp [hd, hr]
  · intro d hd hr
    rw [taskRoute_dict]
    simp [hd, hr]
  · intro v hv hnd
    cases v with
    | dict d => exact absurd rfl (hnd d)
    | none => simp [pyTruthy] at hv
    | bool b => unfold taskRoute; simp [hv]
    | int n => unfold taskRoute; simp [hv]
    | str s => unfold taskRoute; simp [hv]
    | list xs => unfold taskRoute; simp [hv]

/-- On a store with no element matching both keys, the removal
comprehension either reproduces the store or raises on a non-dict
element. -/
theorem filterNotMatching_no_match (e t : String) :
    ∀ store : List PyVal, (∀ a ∈ store, approvalMatches e t a ≠ some true) →
      filterNotMatching e t store = some store ∨
      filterNotMatching e t store = Option.none := by
  intro store
  induction store with
  | nil => intro h; exact Or.inl rfl
  | cons a rest ih =>
    intro h
    have ha := h a (List.mem_cons_self a rest)
    have ihr := ih (fun x hx => h x (List.mem_cons_of_mem a hx))
    cases hm : approvalMatches e t a with
    | none => exact Or.inr (by simp [filterNotMatching, hm])
    | some m =>
      cases m with
      | true => exact absurd hm ha
      | false =>
        cases ihr with
        | inl h1 => exact Or.inl (by simp [filterNotMatching, hm, h1])
        | inr h1 => exact Or.inr (by simp [filterNotMatching, hm, h1])

/-- C7: `remove_approval(e, t)` on store contents containing no record
matching both `e` and `t` leaves the persisted contents unchanged. -/
theorem remove_absent_key_noop (store : List PyVal) (e t : String)
    (h : ∀ a ∈ store, approvalMatches e t a ≠ some true) :
    remove_approval store e t = store := by
  cases filterNotMatching_no_match e t store h with
  | inl h1 => simp [remove_approval, h1]
  | inr h1 => simp [remove_approval, h1]

/-- C7 at a concrete input: a store holding one other record (and one
non-record element) is untouched by removing an absent pair. -/
theorem remove_absent_key_noop_witness :
    remove_approval
      [.dict [("execution_id", .str "e1"), ("task_id", .str "t1")], .str "junk"]
      "zz" "t1"
    = [.dict [("execution_id", .str "e1"), ("task_id", .str "t1")], .str "junk"] :=
  remove_absent_key_noop
    [.dict [("execution_id", .str "e1"), ("task_id", .str "t1")], .str "junk"]
    "zz" "t1" (by decide)

/-- C6 as stated is false on the code: with no listener running and the
port already bound by another process, `start_webhook_server` still
returns `True` — the `try/except` only guards creating and starting the
thread, while the bind error surfaces later inside the background
thread (`runServerBinds` is false), after the call has returned. -/
theorem start_server_true_despite_port_bound :
    (start_webhook_server Option.none Option.none
      { envPort := Option.none, threadStartFails := false, portInUse := true }).1 = true
  ∧ ({ envPort := Option.none, threadStartFails := false, portInUse := true }
      : StartEnv).portInUse = true
  ∧ runServerBinds
      { envPort := Option.none, threadStartFails := false, portInUse := true } = false :=
  ⟨rfl, rfl, rfl⟩

/-- C6 amended: `start_webhook_server` returns true immediately and
unchanged when the tracked thread is alive; otherwise it resolves the
port (the argument when truthy, else the environment value, else 5050)
and starts a background thread, returning true — and returns false
exactly when creating or starting that thread itself raises; an
already-bound port does not make it return false. -/
theorem start_server_idempotent_and_thread_failure :
    ∀ (st : Option ThreadHandle) (given : Option Int) (env : StartEnv),
      (∀ t, st = some t → t.alive = true →
        start_webhook_server st given env = (true, st))
    ∧ ((match st with | some t => t.alive | Option.none => false) = false →
        env.threadStartFails = false →
          start_webhook_server st given env =
            (true, some ⟨true, resolvePort given env.envPort⟩))
    ∧ ((match st with | some t => t.alive | Option.none => false) = false →
        env.threadStartFails = true →
          start_webhook_server st given env =
            (false, some ⟨false, resolvePort given env.envPort⟩))
    ∧ resolvePort Option.none Option.none = 5050
    ∧ (∀ p : Int, p ≠ 0 → resolvePort (some p) env.envPort = p) := by
  intro st given env
  refine ⟨?_, ?_, ?_, rfl, ?_⟩
  · intro t hst ht
    subst hst
    unfold start_webhook_server
    simp [ht]
  · intro hdead hok
    unfold start_webhook_server
    rw [hdead]
    simp [hok]
  · intro hdead hfail
    unfold start_webhook_server
    rw [hdead]
    simp [hfail]
  · intro p hp
    simp [resolvePort, hp]

/-- `strKey` holds exactly for that string value. -/
theorem strKey_eq_iff (v : PyVal) (s : String) : strKey v s = true ↔ v = .str s := by
  cases v <;> simp [strKey]

/-- A record is in the `(e, t)` bucket exactly when its fields are
those strings. -/
theorem keyIs_iff (e t : String) (a : PendingApproval) :
    keyIs e t a = true ↔ a.execution_id = .str e ∧ a.task_id = t := by
  simp [keyIs, Bool.and_eq_true, strKey_eq_iff]

/-- The `(e, t)` bucket after an upsert of a string-keyed record: the
upserted record alone if its pair is `(e, t)`, else the bucket as it
was. -/
theorem upsert_filter (e t : String) (r : PendingApproval) (s : String)
    (hr : r.execution_id = .str s) (store : List PendingApproval) :
    (upsertApproval store r).filter (keyIs e t) =
      if keyIs e t r then [r] else store.filter (keyIs e t) := by
  unfold upsertApproval
  rw [List.filter_append, List.filter_filter]
  by_cases hk : keyIs e t r = true
  · obtain ⟨hre, hrt⟩ := (keyIs_iff e t r).mp hk
    have hpred : ∀ a : PendingApproval,
        (keyIs e t a &&
          !(pyEq a.execution_id r.execution_id && a.task_id == r.task_id)) = false := by
      intro a
      rw [hre, pyEq_str_right, hrt]
      cases h1 : strKey a.execution_id e <;> cases h2 : (a.task_id == t) <;>
        simp [keyIs, h1, h2]
    rw [List.filter_congr (fun a _ => hpred a)]
    simp [hk]
  · have hns : ¬(e = s ∧ t = r.task_id) := by
      rintro ⟨h1, h2⟩
      exact hk ((keyIs_iff e t r).mpr ⟨by rw [hr, h1], h2.symm⟩)
    have hpred : ∀ a : PendingApproval,
        (keyIs e t a &&
          !(pyEq a.execution_id r.execution_id && a.task_id == r.task_id))
          = keyIs e t a := by
      intro a
      by_cases hka : keyIs e t a = true
      · obtain ⟨hae, hat⟩ := (keyIs_iff e t a).mp hka
        rw [hka, hae, hr, pyEq_str_right, Bool.true_and, hat]
        show (!(strKey (PyVal.str e) s && (t == r.task_id))) = true
        cases hes : (e == s) with
        | false => simp [strKey, hes]
        | true =>
          cases het : (t == r.task_id) with
          | false => simp [strKey, het]
          | true => exact absurd ⟨eq_of_beq hes, eq_of_beq het⟩ hns
      · have hfalse : keyIs e t a = false := by
          cases h : keyIs e t a
          · rfl
          · exact absurd h hka
        simp [hfalse]
    rw [List.filter_congr (fun a _ => hpred a)]
    simp [hk]

/-- The `(e, t)` bucket after `remove_approval(e2, t2)`: emptied when
the removed pair is `(e, t)`, untouched otherwise. -/
theorem remove_filter (e t e2 t2 : String) (store : List PendingApproval) :
    (removeApproval store e2 t2).filter (keyIs e t) =
      if e2 == e && t2 == t then [] else store.filter (keyIs e t) := by
  unfold removeApproval
  rw [List.filter_filter]
  by_cases hc : (e2 == e && t2 == t) = true
  · obtain ⟨h1, h2⟩ : e2 = e ∧ t2 = t := by
      have := hc
      simp [Bool.and_eq_true] at this
      exact this
    subst h1
    subst h2
    have hpred : ∀ a : PendingApproval,
        (keyIs e2 t2 a &&
          !(pyEq a.execution_id (.str e2) && a.task_id == t2)) = false := by
      intro a
      rw [pyEq_str_right]
      cases hx : strKey a.execution_id e2 <;> cases hy : (a.task_id == t2) <;>
        simp [keyIs, hx, hy]
    rw [List.filter_congr (fun a _ => hpred a)]
    simp [hc]
  · have hne : ¬(e2 = e ∧ t2 = t) := by
      rintro ⟨h1, h2⟩
      exact hc (by simp [h1, h2])
    have hpred : ∀ a : PendingApproval,
        (keyIs e t a && !(pyEq a.execution_id (.str e2) && a.task_id == t2))
          = keyIs e t a := by
      intro a
      by_cases hka : keyIs e t a = true
      · obtain ⟨hae, hat⟩ := (keyIs_iff e t a).mp hka
        rw [hka, hae, pyEq_str_right, hat, Bool.true_and]
        show (!(strKey (PyVal.str e) e2 && (t == t2))) = true
        cases hes : (e == e2) with
        | false => simp [strKey, hes]
        | true =>
          cases het : (t == t2) with
          | false => simp [strKey, het]
          | true => exact absurd ⟨(eq_of_beq hes).symm, (eq_of_beq het).symm⟩ hne
      · have hfalse : keyIs e t a = false := by
          cases h : keyIs e t a
          · rfl
          · exact absurd h hka
        simp [hfalse]
    rw [List.filter_congr (fun a _ => hpred a)]
    simp [hc]

/-- The store-level per-bucket run from a string-keyed operation
sequence agrees with `bucketFold` on the bucket contents. -/
theorem runOps_filter_aux (e t : String) :
    ∀ (ops : List StoreOp) (store : List PendingApproval),
      opsStringKeyed ops = true →
      (ops.foldl applyOp store).filter (keyIs e t) =
        bucketFold e t (store.filter (keyIs e t)) ops := by
  intro ops
  induction ops with
  | nil => intro store _; rfl
  | cons op rest ih =>
    intro store h
    unfold opsStringKeyed at h
    rw [List.all_cons, Bool.and_eq_true] at h
    obtain ⟨hop, hrest⟩ := h
    cases op with
    | upsert r =>
      obtain ⟨s, hs⟩ : ∃ s2, r.execution_id = PyVal.str s2 := by
        have hop2 : (match r.execution_id with
          | PyVal.str _ => true
          | _ => false) = true := hop
        cases hre : r.execution_id with
        | str s2 => exact ⟨s2, rfl⟩
        | none => rw [hre] at hop2; exact Bool.noConfusion hop2
        | bool b => rw [hre] at hop2; exact Bool.noConfusion hop2
        | int n => rw [hre] at hop2; exact Bool.noConfusion hop2
        | list xs => rw [hre] at hop2; exact Bool.noConfusion hop2
        | dict d => rw [hre] at hop2; exact Bool.noConfusion hop2
      show ((rest.foldl applyOp (upsertApproval store r)).filter (keyIs e t)) =
        bucketFold e t (if keyIs e t r then [r] else store.filter (keyIs e t)) rest
      rw [ih (upsertApproval store r) hrest, upsert_filter e t r s hs store]
    | remove e2 t2 =>
      show ((rest.foldl applyOp (removeApproval store e2 t2)).filter (keyIs e t)) =
        bucketFold e t (if e2 == e && t2 == t then [] else store.filter (keyIs e t)) rest
      rw [ih (removeApproval store e2 t2) hrest, remove_filter e t e2 t2 store]

/-- `bucketFold` from an optional record computes the spec's fold. -/
theorem bucketFold_toList (e t : String) :
    ∀ (ops : List StoreOp) (o : Option PendingApproval),
      bucketFold e t o.toList ops = (ops.foldl (specStep e t) o).toList := by
  intro ops
  induction ops with
  | nil => intro o; rfl
  | cons op rest ih =>
    intro o
    cases op with
    | upsert r =>
      show bucketFold e t (if keyIs e t r then [r] else o.toList) rest =
        (rest.foldl (specStep e t) (specStep e t o (.upsert r))).toList
      by_cases hk : keyIs e t r = true
      · rw [if_pos hk]
        have hstep : specStep e t o (.upsert r) = some r := by simp [specStep, hk]
        rw [hstep]
        exact ih (some r)
      · rw [if_neg hk]
        have hstep : specStep e t o (.upsert r) = o := by simp [specStep, hk]
        rw [hstep]
        exact ih o
    | remove e2 t2 =>
      show bucketFold e t (if e2 == e && t2 == t then [] else o.toList) rest =
        (rest.foldl (specStep e t) (specStep e t o (.remove e2 t2))).toList
      by_cases hc : (e2 == e && t2 == t) = true
      · rw [if_pos hc]
        have hstep : specStep e t o (.remove e2 t2) = Option.none := by
          simp [specStep, hc]
        rw [hstep]
        exact ih Option.none
      · rw [if_neg hc]
        have hstep : specStep e t o (.remove e2 t2) = o := by simp [specStep, hc]
        rw [hstep]
        exact ih o

/-- C1: starting from the empty store, after any sequence of handler
upserts (with string execution ids, the shape the data model gives
stored records) and removes, each string pair's bucket of the store is
exactly the record of the most recent upsert for that pair not followed
by its removal — so there is exactly one record per live pair, with the
fields of the latest upsert — and the store never holds two records
with Python-equal (execution_id, task_id) pairs. -/
theorem store_upsert_remove_refines_map (ops : List StoreOp)
    (h : opsStringKeyed ops = true) :
    (∀ e t : String,
      (runOps ops).filter (keyIs e t) = (specLastUpsert ops e t).toList)
  ∧ (runOps ops).Pairwise distinctKey := by
  constructor
  · intro e t
    show ((ops.foldl applyOp []).filter (keyIs e t)) = _
    rw [runOps_filter_aux e t ops [] h]
    exact bucketFold_toList e t ops Option.none
  · have aux : ∀ (ops2 : List StoreOp) (store : List PendingApproval),
        store.Pairwise distinctKey → (ops2.foldl applyOp store).Pairwise distinctKey := by
      intro ops2
      induction ops2 with
      | nil => intro store hs; exact hs
      | cons op rest ih =>
        intro store hs
        show (rest.foldl applyOp (applyOp store op)).Pairwise distinctKey
        apply ih
        cases op with
        | upsert r =>
          show (upsertApproval store r).Pairwise distinctKey
          unfold upsertApproval
          rw [List.pairwise_append]
          refine ⟨List.Pairwise.filter _ hs, List.pairwise_singleton _ _, ?_⟩
          intro a ha b hb
          rw [List.mem_singleton] at hb
          subst hb
          have hpa := List.of_mem_filter ha
          unfold distinctKey
          rintro ⟨h1, h2⟩
          have hmatch : (pyEq a.execution_id b.execution_id &&
              (a.task_id == b.task_id)) = true := by
            simp [h1, h2]
          rw [hmatch] at hpa
          exact Bool.noConfusion hpa
        | remove e2 t2 =>
          show (removeApproval store e2 t2).Pairwise distinctKey
          exact List.Pairwise.sublist (List.filter_sublist store) hs
    exact aux ops [] List.Pairwise.nil

/-- C1 at a concrete input: three upserts (two on the same pair) and a
remove of the third pair leave exactly the second upsert's record in
the `("k1", "request_review")` bucket. -/
theorem store_upsert_remove_refines_map_witness :
    opsStringKeyed
      [StoreOp.upsert { execution_id := .str "k1", task_id := "request_review",
                        content := .str "v1", raw := .dict [] },
       StoreOp.upsert { execution_id := .str "k1", task_id := "request_review",
                        content := .str "v2", raw := .dict [] },
       StoreOp.upsert { execution_id := .str "k2", task_id := "other_review",
                        content := .str "v3", raw := .dict [] },
       StoreOp.remove "k2" "other_review"] = true
  ∧ (runOps
      [StoreOp.upsert { execution_id := .str "k1", task_id := "request_review",
                        content := .str "v1", raw := .dict [] },
       StoreOp.upsert { execution_id := .str "k1", task_id := "request_review",
                        content := .str "v2", raw := .dict [] },
       StoreOp.upsert { execution_id := .str "k2", task_id := "other_review",
                        content := .str "v3", raw := .dict [] },
       StoreOp.remove "k2" "other_review"]).filter (keyIs "k1" "request_review")
    = [{ execution_id := .str "k1", task_id := "request_review",
         content := .str "v2", raw := .dict [] }] := by
  refine ⟨rfl, ?_⟩
  exact ((store_upsert_remove_refines_map
    [StoreOp.upsert { execution_id := .str "k1", task_id := "request_review",
                      content := .str "v1", raw := .dict [] },
     StoreOp.upsert { execution_id := .str "k1", task_id := "request_review",
                      content := .str "v2", raw := .dict [] },
     StoreOp.upsert { execution_id := .str "k2", task_id := "other_review",
                      content := .str "v3", raw := .dict [] },
     StoreOp.remove "k2" "other_review"] rfl).1 "k1" "request_review").trans rfl

/-- On a store of record dicts, the general `remove_approval` is
exactly the record-level `removeApproval` used in the operation-
sequence model: no element raises, and the same records survive. -/
theorem remove_approval_on_records (store : List PendingApproval) (e t : String) :
    remove_approval (store.map fun r => PyVal.dict r.toDict) e t
      = (removeApproval store e t).map fun r => PyVal.dict r.toDict := by
  have key : ∀ r : PendingApproval,
      approvalMatches e t (PyVal.dict r.toDict)
        = some (pyEq r.execution_id (.str e) && (r.task_id == t)) := by
    intro r
    show some (pyEq (dictGet r.toDict "execution_id") (.str e) &&
               pyEq (dictGet r.toDict "task_id") (.str t))
      = some (pyEq r.execution_id (.str e) && (r.task_id == t))
    rw [show dictGet r.toDict "task_id" = .str r.task_id from rfl,
        show dictGet r.toDict "execution_id" = r.execution_id from rfl,
        pyEq_str_right (.str r.task_id) t]
    rfl
  have main : ∀ l : List PendingApproval,
      filterNotMatching e t (l.map fun r => PyVal.dict r.toDict)
        = some ((l.filter fun a =>
            !(pyEq a.execution_id (.str e) && a.task_id == t)).map
              fun r => PyVal.dict r.toDict) := by
    intro l
    induction l with
    | nil => rfl
    | cons r rest ih =>
      show (match approvalMatches e t (PyVal.dict r.toDict) with
            | Option.none => Option.none
            | some m => (filterNotMatching e t
                (rest.map fun r2 : PendingApproval => PyVal.dict r2.toDict)).map
                  (fun l2 => if m then l2 else PyVal.dict r.toDict :: l2)) = _
      rw [key r, ih]
      cases hm : (pyEq r.execution_id (PyVal.str e) && (r.task_id == t)) with
      | true =>
        rw [List.filter_cons, hm]
        rfl
      | false =>
        rw [List.filter_cons, hm]
        rfl
  unfold remove_approval
  rw [main store]
  rfl
